import Mathlib

/-!
Shallow embedding of the `ContextManager` component of the AVS Device SDK
(`src/ContextManager/include/ContextManager/ContextManager.h`).

Only the header is present in the repository sources, so the data model
(`StateInfo`, `RequestTracker`, the member tables) and the operation
signatures are taken from the header, while the bodies of the operations
are modelled from the specification (`spec.md`), as noted on each
definition.

All maps (`std::unordered_map`) are embedded as association lists with
decidable key equality; machine integers (`unsigned int` request counter)
are `Nat` with explicit reduction modulo `2 ^ 32`.
-/

/-- Capability identity: namespace + name + optional endpoint qualifier
(`avsCommon::avs::CapabilityTag`).  The endpoint field is optional; a
reserved default endpoint identifier is used when it is absent. -/
structure CapabilityTag where
  nameSpace : String
  name : String
  endpointId : Option String
deriving DecidableEq

/-- `avsCommon::avs::StateRefreshPolicy` as used by the spec: `ALWAYS` or
`NEVER`. -/
inductive RefreshPolicy where
  | ALWAYS
  | NEVER
deriving DecidableEq

/-- `ContextManager::StateInfo` from the header: provider pointer
(provider identity, `none` models `nullptr`), optional cached capability
state, the legacy flag, and the refresh policy. -/
structure StateInfo where
  stateProvider : Option Nat
  capabilityState : Option String
  legacyCapability : Bool
  refreshPolicy : RefreshPolicy
deriving DecidableEq

/-- The legacy `StateInfo` constructor.  Its default arguments are taken
from the header (`initStateProvider = nullptr`, `initJsonState = ""`,
`initRefreshPolicy = ALWAYS`).  Modelled from the spec: the constructor
body is in the missing `ContextManager.cpp`; per the spec a cached value
is absent until a provider supplies one, so an empty legacy json state
yields an absent cached value, and the legacy constructor marks the
capability as legacy. -/
def StateInfo.ofLegacy
    (initStateProvider : Option Nat := none)
    (initJsonState : String := "")
    (initRefreshPolicy : RefreshPolicy := RefreshPolicy.ALWAYS) : StateInfo :=
  { stateProvider := initStateProvider
    capabilityState := if initJsonState.isEmpty then none else some initJsonState
    legacyCapability := true
    refreshPolicy := initRefreshPolicy }

/-- `ContextManager::RequestTracker` from the header: the timer token and
the context requester (requester identity). -/
structure RequestTracker where
  timerToken : Nat
  contextRequester : Nat
deriving DecidableEq

/-- `avsCommon::sdkInterfaces::SetStateResult` (only the outcomes the
spec names: success, or provider not registered). -/
inductive SetStateResult where
  | SUCCESS
  | STATE_PROVIDER_NOT_REGISTERED
deriving DecidableEq

/-- The terminal failure outcomes of a context request named by the
spec's error taxonomy. -/
inductive ContextRequestError where
  | RequestTimeout
  | EndpointUnreachable
  | Cancelled
deriving DecidableEq

/-- Observable actions of the context manager: terminal callbacks to a
requester, pull requests to providers, timer arming, and observer
notifications. -/
inductive CMOutput where
  | contextAvailable (requester : Nat) (aggregate : List (CapabilityTag × Option String)) (token : Nat)
  | contextFailure (requester : Nat) (error : ContextRequestError) (token : Nat)
  | pullRequest (provider : Nat) (tag : CapabilityTag) (token : Nat)
  | armTimer (token : Nat) (timeoutMs : Nat)
  | observerNotify (tag : CapabilityTag) (state : String)
deriving DecidableEq

/-- Association-list lookup (first entry with the given key), embedding
`std::unordered_map::find`. -/
def alistLookup {α β : Type} [DecidableEq α] : List (α × β) → α → Option β
  | [], _ => none
  | (k, v) :: rest, a => if k = a then some v else alistLookup rest a

/-- Association-list insert-or-replace, embedding
`std::unordered_map::operator[] =`. -/
def alistInsert {α β : Type} [DecidableEq α] : List (α × β) → α → β → List (α × β)
  | [], a, b => [(a, b)]
  | (k, v) :: rest, a, b =>
    if k = a then (a, b) :: rest else (k, v) :: alistInsert rest a b

/-- Association-list erase, embedding `std::unordered_map::erase`. -/
def alistErase {α β : Type} [DecidableEq α] : List (α × β) → α → List (α × β)
  | [], _ => []
  | (k, v) :: rest, a =>
    if k = a then alistErase rest a else (k, v) :: alistErase rest a

/-- Remove every occurrence of an element from a list, embedding
`std::unordered_set::erase` on the outstanding-tag set. -/
def removeAll {α : Type} [DecidableEq α] : List α → α → List α
  | [], _ => []
  | x :: rest, a => if x = a then removeAll rest a else x :: removeAll rest a

theorem alistLookup_insert_self {α β : Type} [DecidableEq α]
    (l : List (α × β)) (a : α) (b : β) :
    alistLookup (alistInsert l a b) a = some b := by
  induction l with
  | nil => simp [alistInsert, alistLookup]
  | cons p rest ih =>
    obtain ⟨k, v⟩ := p
    by_cases h : k = a
    · simp [alistInsert, h, alistLookup]
    · simp [alistInsert, h, alistLookup, ih]

theorem alistLookup_insert_ne {α β : Type} [DecidableEq α]
    (l : List (α × β)) (a a' : α) (b : β) (h : a ≠ a') :
    alistLookup (alistInsert l a b) a' = alistLookup l a' := by
  induction l with
  | nil => simp [alistInsert, alistLookup, h]
  | cons p rest ih =>
    obtain ⟨k, v⟩ := p
    by_cases hk : k = a
    · subst hk
      simp [alistInsert, alistLookup, h]
    · simp [alistInsert, hk, alistLookup, ih]

theorem alistLookup_erase_self {α β : Type} [DecidableEq α]
    (l : List (α × β)) (a : α) :
    alistLookup (alistErase l a) a = none := by
  induction l with
  | nil => simp [alistErase, alistLookup]
  | cons p rest ih =>
    obtain ⟨k, v⟩ := p
    by_cases h : k = a
    · simp [alistErase, h, ih]
    · simp [alistErase, h, alistLookup, ih]

theorem alistLookup_erase_ne {α β : Type} [DecidableEq α]
    (l : List (α × β)) (a a' : α) (h : a ≠ a') :
    alistLookup (alistErase l a) a' = alistLookup l a' := by
  induction l with
  | nil => simp [alistErase]
  | cons p rest ih =>
    obtain ⟨k, v⟩ := p
    by_cases hk : k = a
    · subst hk
      simp [alistErase, alistLookup, h, ih]
    · simp [alistErase, hk, alistLookup, ih]

theorem mem_removeAll {α : Type} [DecidableEq α] (l : List α) (a x : α) :
    x ∈ removeAll l a ↔ x ∈ l ∧ x ≠ a := by
  induction l with
  | nil => simp [removeAll]
  | cons y rest ih =>
    by_cases h : y = a
    · subst h
      simp [removeAll, ih]
      intro hx
      exact fun he => absurd he hx
    · simp [removeAll, h, ih]
      constructor
      · rintro (rfl | ⟨hm, hn⟩)
        · exact ⟨Or.inl rfl, h⟩
        · exact ⟨Or.inr hm, hn⟩
      · rintro ⟨rfl | hm, hn⟩
        · exact Or.inl rfl
        · exact Or.inr ⟨hm, hn⟩

/-- `unsigned int` word size for the request counter. -/
def wordSize : Nat := 2 ^ 32

/-- State of a `ContextManager` instance, from the header's member
variables: the per-endpoint capability state store `m_endpointsState`,
the request counter `m_requestCounter`, the outstanding-tag table
`m_pendingStateRequest`, the requester table `m_pendingRequests`, the
shutdown flag `m_shutdown`, and the default endpoint id
`m_defaultEndpointId`. -/
structure CMState where
  endpointsState : List (String × List (CapabilityTag × StateInfo))
  requestCounter : Nat
  pendingStateRequest : List (Nat × List CapabilityTag)
  pendingRequests : List (Nat × RequestTracker)
  shutdown : Bool
  defaultEndpointId : String
deriving DecidableEq

/-- The endpoint a capability tag belongs to: its own endpoint id, or the
default endpoint identifier for legacy tags without one.  Modelled from
the spec: a reserved default endpoint identifier exists for legacy
callers that never specify one. -/
def resolveEndpoint (s : CMState) (tag : CapabilityTag) : String :=
  tag.endpointId.getD s.defaultEndpointId

/-- The capability records registered under one endpoint. -/
def endpointCapabilities (s : CMState) (e : String) : List (CapabilityTag × StateInfo) :=
  (alistLookup s.endpointsState e).getD []

/-- Store lookup for one tag under its resolved endpoint. -/
def lookupStore (s : CMState) (tag : CapabilityTag) : Option StateInfo :=
  alistLookup (endpointCapabilities s (resolveEndpoint s tag)) tag

/-- Replace the record for `tag` under its resolved endpoint. -/
def writeStore (s : CMState) (tag : CapabilityTag) (info : StateInfo) : CMState :=
  let e := resolveEndpoint s tag
  { s with endpointsState :=
      alistInsert s.endpointsState e (alistInsert (endpointCapabilities s e) tag info) }

/-- Modelled from the spec: selection rule of §4.1 — a capability
participates in an on-demand pull only if its refresh policy is `ALWAYS`
or no cached value yet exists. -/
def needsPull (info : StateInfo) : Bool :=
  info.refreshPolicy = RefreshPolicy.ALWAYS || info.capabilityState.isNone

/-- Modelled from the spec: the worklist of capabilities of `e` needing a
pull in a `getContext` round. -/
def pullWorklist (s : CMState) (e : String) : List (CapabilityTag × StateInfo) :=
  (endpointCapabilities s e).filter (fun p => needsPull p.snd)

/-- Modelled from the spec: `snapshot(endpointId)` returns, for every
registered capability under the endpoint, its tag and current cached
state. -/
def snapshot (s : CMState) (e : String) : List (CapabilityTag × Option String) :=
  (endpointCapabilities s e).map (fun p => (p.fst, p.snd.capabilityState))

/-- The tokens of all currently pending requests. -/
def liveTokens (s : CMState) : List Nat :=
  s.pendingRequests.map Prod.fst

/-- Modelled from the spec: `generateToken` draws candidates from the
monotonically increasing request counter, wrapping on `unsigned int`
overflow, and skips the reserved value `0` and any value still present
in the pending-request table.  The fuel argument bounds the search; the
caller passes `live.length + 2`, which always suffices (see
`generateTokenAux_good`). -/
def generateTokenAux (live : List Nat) : Nat → Nat → Nat
  | _, 0 => 0
  | counter, fuel + 1 =>
    let c := (counter + 1) % wordSize
    if c ≠ 0 ∧ c ∉ live then c else generateTokenAux live c fuel

/-- Modelled from the spec: allocate a fresh request token and advance
the counter. -/
def generateToken (s : CMState) : Nat × CMState :=
  let t := generateTokenAux (liveTokens s) s.requestCounter ((liveTokens s).length + 2)
  (t, { s with requestCounter := t })

/-- Modelled from the spec: completion check of §4.2
(`sendContextIfReadyLocked` in the header) — if no outstanding tag
remains for `requestToken`, delete the bookkeeping and deliver the
aggregate snapshot of `endpointId` to the requester. -/
def sendContextIfReadyLocked (s : CMState) (requestToken : Nat) (endpointId : String) :
    CMState × List CMOutput :=
  match alistLookup s.pendingStateRequest requestToken with
  | some (_ :: _) => (s, [])
  | _ =>
    match alistLookup s.pendingRequests requestToken with
    | none => (s, [])
    | some tracker =>
      ({ s with
          pendingRequests := alistErase s.pendingRequests requestToken
          pendingStateRequest := alistErase s.pendingStateRequest requestToken },
       [CMOutput.contextAvailable tracker.contextRequester (snapshot s endpointId) requestToken])

/-- Modelled from the spec: failure delivery of §4.2
(`sendContextRequestFailedLocked` in the header) — if `requestToken` is
still pending, delete the bookkeeping and deliver the failure to the
requester; a stale or unknown token is silently ignored. -/
def sendContextRequestFailedLocked (s : CMState) (requestToken : Nat)
    (error : ContextRequestError) : CMState × List CMOutput :=
  match alistLookup s.pendingRequests requestToken with
  | none => (s, [])
  | some tracker =>
    ({ s with
        pendingRequests := alistErase s.pendingRequests requestToken
        pendingStateRequest := alistErase s.pendingStateRequest requestToken },
     [CMOutput.contextFailure tracker.contextRequester error requestToken])

/-- Modelled from the spec: `getContext(requester, endpointId, timeout)`
of §4.2 — allocate a token, compute the pull worklist; an empty worklist
resolves immediately with success from the current snapshot and arms no
timer; otherwise record the pending request, arm the timeout and issue a
pull to every worklist provider.  The token is returned immediately.
After shutdown the call is a no-op returning the reserved token `0`. -/
def getContext (s : CMState) (contextRequester : Nat) (endpointId : String)
    (timeoutMs : Nat) : Nat × CMState × List CMOutput :=
  if s.shutdown then (0, s, [])
  else
    let ts := generateToken s
    let t := ts.fst
    let s1 := ts.snd
    let wl := pullWorklist s1 endpointId
    if wl.isEmpty then
      (t, s1, [CMOutput.contextAvailable contextRequester (snapshot s1 endpointId) t])
    else
      (t,
       { s1 with
          pendingStateRequest := alistInsert s1.pendingStateRequest t (wl.map Prod.fst)
          pendingRequests := alistInsert s1.pendingRequests t ⟨t, contextRequester⟩ },
       CMOutput.armTimer t timeoutMs ::
         wl.map (fun p => CMOutput.pullRequest (p.snd.stateProvider.getD 0) p.fst t))

/-- Modelled from the spec: `provideStateResponse(tag, state, token)` of
§4.2 — if `token` names a live pending request and `tag` is among its
outstanding tags, record the value in the store, remove the tag from the
outstanding set and check for completion; a stale or unknown token or
tag is ignored. -/
def provideStateResponse (s : CMState) (tag : CapabilityTag) (capabilityState : String)
    (stateRequestToken : Nat) : CMState × List CMOutput :=
  if s.shutdown then (s, [])
  else
    match alistLookup s.pendingStateRequest stateRequestToken with
    | none => (s, [])
    | some outstanding =>
      if tag ∈ outstanding then
        let s1 :=
          match lookupStore s tag with
          | none => s
          | some info => writeStore s tag { info with capabilityState := some capabilityState }
        let s2 := { s1 with
          pendingStateRequest :=
            alistInsert s1.pendingStateRequest stateRequestToken (removeAll outstanding tag) }
        sendContextIfReadyLocked s2 stateRequestToken (resolveEndpoint s tag)
      else (s, [])

/-- Modelled from the spec: `provideStateUnavailableResponse(tag, token,
isEndpointUnreachable)` of §4.2 — with `isEndpointUnreachable` set the
whole pending request resolves immediately as unreachable regardless of
remaining outstanding tags; otherwise the tag is removed from the
outstanding set without a fresh value (the last cached value, possibly
absent, stands for the final aggregate) and completion is checked; a
stale or unknown token is ignored. -/
def provideStateUnavailableResponse (s : CMState) (tag : CapabilityTag)
    (stateRequestToken : Nat) (isEndpointUnreachable : Bool) : CMState × List CMOutput :=
  if s.shutdown then (s, [])
  else
    match alistLookup s.pendingStateRequest stateRequestToken with
    | none => (s, [])
    | some outstanding =>
      if isEndpointUnreachable then
        sendContextRequestFailedLocked s stateRequestToken ContextRequestError.EndpointUnreachable
      else if tag ∈ outstanding then
        let s1 := { s with
          pendingStateRequest :=
            alistInsert s.pendingStateRequest stateRequestToken (removeAll outstanding tag) }
        sendContextIfReadyLocked s1 stateRequestToken (resolveEndpoint s tag)
      else (s, [])

/-- Modelled from the spec: the request timeout bound to a token fires —
if the request is still awaiting responses, deliver a timeout failure;
after shutdown or for a resolved token this is a no-op. -/
def onTimeout (s : CMState) (requestToken : Nat) : CMState × List CMOutput :=
  if s.shutdown then (s, [])
  else sendContextRequestFailedLocked s requestToken ContextRequestError.RequestTimeout

/-- Modelled from the spec: `updateCapabilityState(tag, jsonState,
refreshPolicy)` (declared in the header, body in the missing cpp) —
writes the value into the store exactly like a pull response together
with the new refresh policy, but only when `tag` has a record; returns
`none` when the provider is not registered. -/
def updateCapabilityState (s : CMState) (tag : CapabilityTag) (jsonState : String)
    (refreshPolicy : RefreshPolicy) : Option CMState :=
  match lookupStore s tag with
  | none => none
  | some info =>
    some (writeStore s tag
      { info with capabilityState := some jsonState, refreshPolicy := refreshPolicy })

/-- Modelled from the spec: `setState(tag, jsonState, refreshPolicy,
token = 0)` of §4.2 — the legacy pull-compatible path.  Writes the value
into the store exactly like a pull response; with a non-zero token it is
treated identically to `provideStateResponse` for completion purposes.
Returns success, or provider-not-registered when `tag` has no record (in
which case the store is untouched). -/
def setState (s : CMState) (tag : CapabilityTag) (jsonState : String)
    (refreshPolicy : RefreshPolicy) (stateRequestToken : Nat) :
    SetStateResult × CMState × List CMOutput :=
  if s.shutdown then (SetStateResult.SUCCESS, s, [])
  else
    match updateCapabilityState s tag jsonState refreshPolicy with
    | none => (SetStateResult.STATE_PROVIDER_NOT_REGISTERED, s, [])
    | some s1 =>
      if stateRequestToken = 0 then (SetStateResult.SUCCESS, s1, [])
      else
        match alistLookup s1.pendingStateRequest stateRequestToken with
        | none => (SetStateResult.SUCCESS, s1, [])
        | some outstanding =>
          if tag ∈ outstanding then
            let s2 := { s1 with
              pendingStateRequest :=
                alistInsert s1.pendingStateRequest stateRequestToken
                  (removeAll outstanding tag) }
            let r := sendContextIfReadyLocked s2 stateRequestToken (resolveEndpoint s tag)
            (SetStateResult.SUCCESS, r.fst, r.snd)
          else (SetStateResult.SUCCESS, s1, [])

/-- Modelled from the spec: the single registration operation
`registerProvider(tag, provider, resetState)` of §4.1 behind the legacy
dual API — inserts/replaces the record for `tag`; with `resetState` any
previously cached value is discarded, otherwise an existing cached value
is preserved across re-registration. -/
def registerProvider (s : CMState) (tag : CapabilityTag) (stateProvider : Option Nat)
    (resetState : Bool) (legacy : Bool) : CMState :=
  let kept :=
    match lookupStore s tag with
    | none => none
    | some info => if resetState then none else info.capabilityState
  writeStore s tag
    { stateProvider := stateProvider
      capabilityState := kept
      legacyCapability := legacy
      refreshPolicy := RefreshPolicy.ALWAYS }

/-- Modelled from the spec: `setStateProvider` — the legacy
`setState`-style registration path, which resets any cached value. -/
def setStateProvider (s : CMState) (tag : CapabilityTag) (stateProvider : Option Nat) :
    CMState :=
  if s.shutdown then s else registerProvider s tag stateProvider true true

/-- Modelled from the spec: `addStateProvider` — registration that
preserves an existing cached value across re-registration. -/
def addStateProvider (s : CMState) (tag : CapabilityTag) (stateProvider : Option Nat) :
    CMState :=
  if s.shutdown then s else registerProvider s tag stateProvider false false

/-- Modelled from the spec: `removeStateProvider(tag)` — removes the
record entirely. -/
def removeStateProvider (s : CMState) (tag : CapabilityTag) : CMState :=
  if s.shutdown then s
  else
    let e := resolveEndpoint s tag
    { s with endpointsState :=
        alistInsert s.endpointsState e (alistErase (endpointCapabilities s e) tag) }

/-- Modelled from the spec: `reportStateChange(tag, state, cause)` —
unconditional push update of the store (a push for an unregistered tag
is a no-op), not interacting with any pending request, followed by
observer notification. -/
def reportStateChange (s : CMState) (tag : CapabilityTag) (capabilityState : String) :
    CMState × List CMOutput :=
  if s.shutdown then (s, [])
  else
    match lookupStore s tag with
    | none => (s, [])
    | some info =>
      (writeStore s tag { info with capabilityState := some capabilityState },
       [CMOutput.observerNotify tag capabilityState])

/-- Modelled from the spec: shutdown (§4.2 cancellation) — sets the
one-way shutdown flag, resolves every pending request as cancelled
(delivered as a failure) and clears the request bookkeeping.  Invoking
it after shutdown is a no-op. -/
def doShutdown (s : CMState) : CMState × List CMOutput :=
  if s.shutdown then (s, [])
  else
    ({ s with shutdown := true, pendingRequests := [], pendingStateRequest := [] },
     s.pendingRequests.map
       (fun p => CMOutput.contextFailure p.snd.contextRequester ContextRequestError.Cancelled p.fst))

/-- The external events driving a `ContextManager` instance. -/
inductive CMEvent where
  | setStateProvider (tag : CapabilityTag) (stateProvider : Option Nat)
  | addStateProvider (tag : CapabilityTag) (stateProvider : Option Nat)
  | removeStateProvider (tag : CapabilityTag)
  | setState (tag : CapabilityTag) (jsonState : String) (refreshPolicy : RefreshPolicy) (token : Nat)
  | getContext (requester : Nat) (endpointId : String) (timeoutMs : Nat)
  | reportStateChange (tag : CapabilityTag) (state : String)
  | provideStateResponse (tag : CapabilityTag) (state : String) (token : Nat)
  | provideStateUnavailableResponse (tag : CapabilityTag) (token : Nat) (isEndpointUnreachable : Bool)
  | timerFired (token : Nat)
  | shutdown
deriving DecidableEq

/-- One step of the context manager on an external event. -/
def cmStep (s : CMState) : CMEvent → CMState × List CMOutput
  | CMEvent.setStateProvider tag p => (setStateProvider s tag p, [])
  | CMEvent.addStateProvider tag p => (addStateProvider s tag p, [])
  | CMEvent.removeStateProvider tag => (removeStateProvider s tag, [])
  | CMEvent.setState tag j pol tok => (setState s tag j pol tok).snd
  | CMEvent.getContext r e tmo => (getContext s r e tmo).snd
  | CMEvent.reportStateChange tag v => reportStateChange s tag v
  | CMEvent.provideStateResponse tag v tok => provideStateResponse s tag v tok
  | CMEvent.provideStateUnavailableResponse tag tok unreachable =>
      provideStateUnavailableResponse s tag tok unreachable
  | CMEvent.timerFired tok => onTimeout s tok
  | CMEvent.shutdown => doShutdown s

/-- Run a sequence of events, concatenating the outputs. -/
def runTrace (s : CMState) : List CMEvent → CMState × List CMOutput
  | [] => (s, [])
  | e :: es =>
    let r1 := cmStep s e
    let r2 := runTrace r1.fst es
    (r2.fst, r1.snd ++ r2.snd)

/-- Whether an output is a terminal callback (success or failure)
delivered for the given token. -/
def CMOutput.isDeliveryFor (t : Nat) : CMOutput → Bool
  | CMOutput.contextAvailable _ _ tok => tok == t
  | CMOutput.contextFailure _ _ tok => tok == t
  | _ => false

/-- Number of terminal callbacks delivered for one token in an output
sequence. -/
def deliveryCount (t : Nat) (outs : List CMOutput) : Nat :=
  (outs.filter (CMOutput.isDeliveryFor t)).length

/-- A token that no bookkeeping table knows: already resolved, or never
issued. -/
def tokenDead (s : CMState) (t : Nat) : Prop :=
  alistLookup s.pendingStateRequest t = none ∧ alistLookup s.pendingRequests t = none

/-- The provider-response and timer events that reference one token. -/
def refsToken (t : Nat) : CMEvent → Prop
  | CMEvent.provideStateResponse _ _ tok => tok = t
  | CMEvent.provideStateUnavailableResponse _ tok _ => tok = t
  | CMEvent.timerFired tok => tok = t
  | _ => False

theorem ifReady_outputs (s0 : CMState) (t : Nat) (e : String) :
    (sendContextIfReadyLocked s0 t e).snd = [] ∨
    ∃ out, (sendContextIfReadyLocked s0 t e).snd = [out] ∧
      CMOutput.isDeliveryFor t out = true ∧
      tokenDead (sendContextIfReadyLocked s0 t e).fst t := by
  unfold sendContextIfReadyLocked
  split
  · exact Or.inl rfl
  · split
    · exact Or.inl rfl
    · rename_i tracker _
      refine Or.inr ⟨_, rfl, ?_, ?_⟩
      · simp [CMOutput.isDeliveryFor]
      · simp [tokenDead, alistLookup_erase_self]

theorem ifFailed_outputs (s0 : CMState) (t : Nat) (err : ContextRequestError) :
    (sendContextRequestFailedLocked s0 t err).snd = [] ∨
    ∃ out, (sendContextRequestFailedLocked s0 t err).snd = [out] ∧
      CMOutput.isDeliveryFor t out = true ∧
      tokenDead (sendContextRequestFailedLocked s0 t err).fst t := by
  unfold sendContextRequestFailedLocked
  split
  · exact Or.inl rfl
  · rename_i tracker _
    refine Or.inr ⟨_, rfl, ?_, ?_⟩
    · simp [CMOutput.isDeliveryFor]
    · simp [tokenDead, alistLookup_erase_self]

theorem provideStateResponse_outputs (s : CMState) (tag : CapabilityTag) (v : String)
    (t : Nat) :
    (provideStateResponse s tag v t).snd = [] ∨
    ∃ out, (provideStateResponse s tag v t).snd = [out] ∧
      CMOutput.isDeliveryFor t out = true ∧
      tokenDead (provideStateResponse s tag v t).fst t := by
  unfold provideStateResponse
  split
  · exact Or.inl rfl
  · split
    · exact Or.inl rfl
    · split
      · exact ifReady_outputs _ _ _
      · exact Or.inl rfl

theorem provideStateUnavailableResponse_outputs (s : CMState) (tag : CapabilityTag)
    (t : Nat) (unreachable : Bool) :
    (provideStateUnavailableResponse s tag t unreachable).snd = [] ∨
    ∃ out, (provideStateUnavailableResponse s tag t unreachable).snd = [out] ∧
      CMOutput.isDeliveryFor t out = true ∧
      tokenDead (provideStateUnavailableResponse s tag t unreachable).fst t := by
  unfold provideStateUnavailableResponse
  split
  · exact Or.inl rfl
  · split
    · exact Or.inl rfl
    · split
      · exact ifFailed_outputs _ _ _
      · split
        · exact ifReady_outputs _ _ _
        · exact Or.inl rfl

theorem onTimeout_outputs (s : CMState) (t : Nat) :
    (onTimeout s t).snd = [] ∨
    ∃ out, (onTimeout s t).snd = [out] ∧
      CMOutput.isDeliveryFor t out = true ∧
      tokenDead (onTimeout s t).fst t := by
  unfold onTimeout
  split
  · exact Or.inl rfl
  · exact ifFailed_outputs _ _ _

theorem respEvent_outputs (s : CMState) (t : Nat) (e : CMEvent) (h : refsToken t e) :
    (cmStep s e).snd = [] ∨
    ∃ out, (cmStep s e).snd = [out] ∧
      CMOutput.isDeliveryFor t out = true ∧
      tokenDead (cmStep s e).fst t := by
  cases e with
  | provideStateResponse tag v tok =>
    cases h
    exact provideStateResponse_outputs s tag v t
  | provideStateUnavailableResponse tag tok unreachable =>
    cases h
    exact provideStateUnavailableResponse_outputs s tag t unreachable
  | timerFired tok =>
    cases h
    exact onTimeout_outputs s t
  | setStateProvider tag p => exact absurd h id
  | addStateProvider tag p => exact absurd h id
  | removeStateProvider tag => exact absurd h id
  | setState tag j pol tok => exact absurd h id
  | getContext r ep tmo => exact absurd h id
  | reportStateChange tag v => exact absurd h id
  | shutdown => exact absurd h id

theorem respEvent_dead_noop (s : CMState) (t : Nat) (e : CMEvent)
    (h : refsToken t e) (hd : tokenDead s t) : cmStep s e = (s, []) := by
  cases e with
  | provideStateResponse tag v tok =>
    cases h
    simp [cmStep, provideStateResponse, hd.1]
  | provideStateUnavailableResponse tag tok unreachable =>
    cases h
    simp [cmStep, provideStateUnavailableResponse, hd.1]
  | timerFired tok =>
    cases h
    simp [cmStep, onTimeout, sendContextRequestFailedLocked, hd.2]
  | setStateProvider tag p => exact absurd h id
  | addStateProvider tag p => exact absurd h id
  | removeStateProvider tag => exact absurd h id
  | setState tag j pol tok => exact absurd h id
  | getContext r ep tmo => exact absurd h id
  | reportStateChange tag v => exact absurd h id
  | shutdown => exact absurd h id

theorem deliveryCount_append (t : Nat) (a b : List CMOutput) :
    deliveryCount t (a ++ b) = deliveryCount t a + deliveryCount t b := by
  simp [deliveryCount, List.filter_append]

/-- C1: for every token, over any sequence of `provideStateResponse`,
`provideStateUnavailableResponse` and timer-firing events referencing
that token, at most one terminal callback (`onContextAvailable` or
`onContextFailure`) is delivered for it — only the first event that
triggers a terminal transition causes a delivery — and from any state in
which the token is already resolved or unknown, every such event is a
no-op with no visible effect. -/
theorem single_terminal_delivery_per_token (s : CMState) (t : Nat) (es : List CMEvent)
    (h : ∀ e ∈ es, refsToken t e) :
    deliveryCount t (runTrace s es).snd ≤ 1 ∧
    (tokenDead s t → runTrace s es = (s, [])) := by
  revert h
  induction es generalizing s with
  | nil =>
    intro _
    simp [runTrace, deliveryCount]
  | cons e es ih =>
    intro h
    have he : refsToken t e := h e (List.mem_cons_self e es)
    have hes : ∀ e' ∈ es, refsToken t e' := fun e' hm => h e' (List.mem_cons_of_mem e hm)
    have hrt : runTrace s (e :: es) =
        ((runTrace (cmStep s e).fst es).fst,
         (cmStep s e).snd ++ (runTrace (cmStep s e).fst es).snd) := rfl
    constructor
    · rcases respEvent_outputs s t e he with h0 | ⟨out, hout, hdel, hdead⟩
      · rw [hrt]
        simp only [h0, List.nil_append]
        exact (ih (cmStep s e).fst hes).1
      · have h2 := (ih (cmStep s e).fst hes).2 hdead
        rw [hrt]
        simp [hout, h2, deliveryCount, hdel]
    · intro hd
      have hstep0 : cmStep s e = (s, []) := respEvent_dead_noop s t e he hd
      have h2 := (ih s hes).2 hd
      rw [hrt, hstep0]
      simp [h2]

/-- Witness for C1 at a concrete state and event sequence: a pending
request for token 1 with one outstanding tag receives a response, an
unavailable response and a timer firing, all for token 1. -/
theorem single_terminal_delivery_per_token_witness :
    deliveryCount 1
        (runTrace
          ⟨[("dev", [(⟨"Alerts", "AlertsState", none⟩, ⟨some 7, none, false, RefreshPolicy.ALWAYS⟩)])],
            1, [(1, [⟨"Alerts", "AlertsState", none⟩])], [(1, ⟨1, 42⟩)], false, "dev"⟩
          [CMEvent.provideStateResponse ⟨"Alerts", "AlertsState", none⟩ "on" 1,
           CMEvent.provideStateUnavailableResponse ⟨"Alerts", "AlertsState", none⟩ 1 true,
           CMEvent.timerFired 1]).snd ≤ 1 ∧
    (tokenDead
        ⟨[("dev", [(⟨"Alerts", "AlertsState", none⟩, ⟨some 7, none, false, RefreshPolicy.ALWAYS⟩)])],
          1, [(1, [⟨"Alerts", "AlertsState", none⟩])], [(1, ⟨1, 42⟩)], false, "dev"⟩ 1 →
      runTrace
          ⟨[("dev", [(⟨"Alerts", "AlertsState", none⟩, ⟨some 7, none, false, RefreshPolicy.ALWAYS⟩)])],
            1, [(1, [⟨"Alerts", "AlertsState", none⟩])], [(1, ⟨1, 42⟩)], false, "dev"⟩
          [CMEvent.provideStateResponse ⟨"Alerts", "AlertsState", none⟩ "on" 1,
           CMEvent.provideStateUnavailableResponse ⟨"Alerts", "AlertsState", none⟩ 1 true,
           CMEvent.timerFired 1] =
        (⟨[("dev", [(⟨"Alerts", "AlertsState", none⟩, ⟨some 7, none, false, RefreshPolicy.ALWAYS⟩)])],
            1, [(1, [⟨"Alerts", "AlertsState", none⟩])], [(1, ⟨1, 42⟩)], false, "dev"⟩, [])) :=
  single_terminal_delivery_per_token _ 1 _ (by simp [refsToken])

/-- A token value the generator may issue: non-zero and not colliding
with any currently pending request. -/
def goodToken (live : List Nat) (c : Nat) : Prop :=
  c ≠ 0 ∧ c ∉ live

theorem generateTokenAux_good (live : List Nat) :
    ∀ (fuel counter : Nat),
      (∃ i < fuel, goodToken live ((counter + i + 1) % wordSize)) →
      goodToken live (generateTokenAux live counter fuel) := by
  intro fuel
  induction fuel with
  | zero =>
    rintro counter ⟨i, hi, _⟩
    omega
  | succ n ih =>
    rintro counter ⟨i, hi, hgood⟩
    by_cases hc : (counter + 1) % wordSize ≠ 0 ∧ (counter + 1) % wordSize ∉ live
    · have h1 : generateTokenAux live counter (n + 1) = (counter + 1) % wordSize := by
        simp [generateTokenAux, hc]
      rw [h1]
      exact hc
    · have hrec : generateTokenAux live counter (n + 1) =
          generateTokenAux live ((counter + 1) % wordSize) n := by
        simp [generateTokenAux, hc]
      rw [hrec]
      apply ih
      cases i with
      | zero =>
        exact absurd hgood (by simpa [goodToken] using hc)
      | succ j =>
        refine ⟨j, by omega, ?_⟩
        have hmod : ((counter + 1) % wordSize + j + 1) % wordSize =
            (counter + (j + 1) + 1) % wordSize := by
          rw [Nat.add_assoc ((counter + 1) % wordSize) j 1, Nat.mod_add_mod]
          congr 1
          omega
        rw [hmod]
        exact hgood

theorem window_mod_inj (a i j : Nat) (hi : 0 < i) (hj : 0 < j)
    (hiW : i ≤ wordSize) (hjW : j ≤ wordSize)
    (h : (a + i) % wordSize = (a + j) % wordSize) : i = j := by
  have hW : 0 < wordSize := by norm_num [wordSize]
  have key : ∀ i j : Nat, i ≤ j → 0 < i → j ≤ wordSize →
      (a + i) % wordSize = (a + j) % wordSize → j - i = 0 := by
    intro i j hle hipos hjw hmod
    have hij : i ≡ j [MOD wordSize] := Nat.ModEq.add_left_cancel' a hmod
    have hdvd : wordSize ∣ j - i := (Nat.modEq_iff_dvd' hle).mp hij
    exact Nat.eq_zero_of_dvd_of_lt hdvd (by omega)
  rcases Nat.le_total i j with hle | hle
  · have := key i j hle hi hjW h
    omega
  · have := key j i hle hj hiW h.symm
    omega

theorem exists_good_candidate (live : List Nat) (counter : Nat)
    (hlen : live.length + 2 ≤ wordSize) :
    ∃ i < live.length + 2, goodToken live ((counter + i + 1) % wordSize) := by
  by_contra hcon
  push_neg at hcon
  set f : Nat → Nat := fun i => (counter + i + 1) % wordSize with hf
  set L : List Nat := (List.range (live.length + 2)).map f with hL
  have hbad : ∀ x ∈ L, x = 0 ∨ x ∈ live := by
    intro x hx
    rw [hL, List.mem_map] at hx
    obtain ⟨i, hi, rfl⟩ := hx
    rw [List.mem_range] at hi
    have := hcon i hi
    rw [goodToken] at this
    by_cases h0 : f i = 0
    · exact Or.inl h0
    · right
      by_contra hmem
      exact this ⟨h0, hmem⟩
  have hnodup : L.Nodup := by
    refine List.Nodup.map_on ?_ (List.nodup_range _)
    intro x hx y hy hxy
    rw [List.mem_range] at hx hy
    have hx' : x + 1 ≤ wordSize := by omega
    have hy' : y + 1 ≤ wordSize := by omega
    have : x + 1 = y + 1 := by
      apply window_mod_inj counter (x + 1) (y + 1) (by omega) (by omega) hx' hy'
      have e1 : counter + (x + 1) = counter + x + 1 := by omega
      have e2 : counter + (y + 1) = counter + y + 1 := by omega
      rw [e1, e2]
      exact hxy
    omega
  have hsub : L.toFinset ⊆ live.toFinset ∪ {0} := by
    intro x hx
    rw [List.mem_toFinset] at hx
    rcases hbad x hx with h0 | hm
    · exact Finset.mem_union_right _ (by simp [h0])
    · exact Finset.mem_union_left _ (List.mem_toFinset.mpr hm)
  have hcard1 : L.toFinset.card = live.length + 2 := by
    rw [List.toFinset_card_of_nodup hnodup, hL, List.length_map, List.length_range]
  have hcard2 : L.toFinset.card ≤ live.length + 1 :=
    calc L.toFinset.card ≤ (live.toFinset ∪ {0}).card := Finset.card_le_card hsub
      _ ≤ live.toFinset.card + 1 := by
          refine le_trans (Finset.card_union_le _ _) ?_
          simp
      _ ≤ live.length + 1 := by
          have := List.toFinset_card_le live
          omega
  omega

theorem generateToken_fresh (s : CMState)
    (hlen : (liveTokens s).length + 2 ≤ wordSize) :
    (generateToken s).fst ≠ 0 ∧ (generateToken s).fst ∉ liveTokens s :=
  generateTokenAux_good (liveTokens s) ((liveTokens s).length + 2) s.requestCounter
    (exists_good_candidate (liveTokens s) s.requestCounter hlen)

/-- C2: a `getContext` call accepted before shutdown returns a token
that is never `0` and differs from the token of every currently pending
request; the generator draws from the wrapping request counter and skips
the reserved value `0` and every value still present in the
pending-request table (the side condition that the table holds fewer
than `2 ^ 32 - 1` requests always holds for a table of machine
tokens). -/
theorem getContext_token_nonzero_and_fresh (s : CMState) (r : Nat) (ep : String)
    (tmo : Nat) (hrun : s.shutdown = false)
    (hlen : s.pendingRequests.length + 2 ≤ wordSize) :
    (getContext s r ep tmo).fst ≠ 0 ∧
    ∀ tok ∈ liveTokens s, (getContext s r ep tmo).fst ≠ tok := by
  have hlive : (liveTokens s).length + 2 ≤ wordSize := by
    simpa [liveTokens] using hlen
  have hfresh := generateToken_fresh s hlive
  have hfst : (getContext s r ep tmo).fst = (generateToken s).fst := by
    by_cases hwl : (pullWorklist (generateToken s).snd ep).isEmpty
    · simp [getContext, hrun, hwl]
    · simp [getContext, hrun, hwl]
  rw [hfst]
  exact ⟨hfresh.1, fun tok htok heq => hfresh.2 (heq ▸ htok)⟩

/-- Witness for C2 at a concrete state: one pending request with token
6, counter at 5; the issued token is non-zero and avoids token 6. -/
theorem getContext_token_nonzero_and_fresh_witness :
    (getContext ⟨[], 5, [], [(6, ⟨6, 1⟩)], false, "dev"⟩ 1 "dev" 100).fst ≠ 0 ∧
    ∀ tok ∈ liveTokens ⟨[], 5, [], [(6, ⟨6, 1⟩)], false, "dev"⟩,
      (getContext ⟨[], 5, [], [(6, ⟨6, 1⟩)], false, "dev"⟩ 1 "dev" 100).fst ≠ tok :=
  getContext_token_nonzero_and_fresh ⟨[], 5, [], [(6, ⟨6, 1⟩)], false, "dev"⟩ 1 "dev" 100
    rfl (by decide)

theorem lookupStore_writeStore_self (s : CMState) (tag : CapabilityTag) (info : StateInfo) :
    lookupStore (writeStore s tag info) tag = some info := by
  unfold lookupStore writeStore endpointCapabilities resolveEndpoint
  simp [alistLookup_insert_self]

theorem lookupStore_writeStore_ne (s : CMState) (tag tag2 : CapabilityTag)
    (info : StateInfo) (h : tag2 ≠ tag) :
    lookupStore (writeStore s tag info) tag2 = lookupStore s tag2 := by
  unfold lookupStore writeStore endpointCapabilities resolveEndpoint
  by_cases he : tag2.endpointId.getD s.defaultEndpointId =
      tag.endpointId.getD s.defaultEndpointId
  · rw [he]
    simp [alistLookup_insert_self, alistLookup_insert_ne _ _ _ _ (Ne.symm h)]
  · rw [alistLookup_insert_ne _ _ _ _ (fun heq => he heq.symm)]

@[simp]
theorem ifReady_endpointsState (s0 : CMState) (t : Nat) (e : String) :
    (sendContextIfReadyLocked s0 t e).fst.endpointsState = s0.endpointsState := by
  unfold sendContextIfReadyLocked
  split
  · rfl
  · split
    · rfl
    · rfl

@[simp]
theorem ifReady_defaultEndpointId (s0 : CMState) (t : Nat) (e : String) :
    (sendContextIfReadyLocked s0 t e).fst.defaultEndpointId = s0.defaultEndpointId := by
  unfold sendContextIfReadyLocked
  split
  · rfl
  · split
    · rfl
    · rfl

@[simp]
theorem ifFailed_endpointsState (s0 : CMState) (t : Nat) (err : ContextRequestError) :
    (sendContextRequestFailedLocked s0 t err).fst.endpointsState = s0.endpointsState := by
  unfold sendContextRequestFailedLocked
  split
  · rfl
  · rfl

@[simp]
theorem ifFailed_defaultEndpointId (s0 : CMState) (t : Nat) (err : ContextRequestError) :
    (sendContextRequestFailedLocked s0 t err).fst.defaultEndpointId = s0.defaultEndpointId := by
  unfold sendContextRequestFailedLocked
  split
  · rfl
  · rfl

/-- C3: a `setState` call before shutdown whose capability tag has no
registered record returns the provider-not-registered result and leaves
the whole state (in particular the capability state store) unchanged;
when the tag has a record, the call returns success and writes the given
value into the store as the new cached state (exactly what a pull
response writes), together with the given refresh policy. -/
theorem setState_unregistered_vs_registered (s : CMState) (tag : CapabilityTag)
    (j : String) (pol : RefreshPolicy) (tok : Nat) (hrun : s.shutdown = false) :
    (lookupStore s tag = none →
      (setState s tag j pol tok).fst = SetStateResult.STATE_PROVIDER_NOT_REGISTERED ∧
      (setState s tag j pol tok).snd.fst = s) ∧
    (∀ info, lookupStore s tag = some info →
      (setState s tag j pol tok).fst = SetStateResult.SUCCESS ∧
      lookupStore (setState s tag j pol tok).snd.fst tag =
        some { info with capabilityState := some j, refreshPolicy := pol }) := by
  constructor
  · intro hnone
    constructor
    · simp [setState, hrun, updateCapabilityState, hnone]
    · simp [setState, hrun, updateCapabilityState, hnone]
  · intro info hsome
    have hupd : updateCapabilityState s tag j pol =
        some (writeStore s tag
          { info with capabilityState := some j, refreshPolicy := pol }) := by
      simp [updateCapabilityState, hsome]
    by_cases htok : tok = 0
    · constructor
      · simp [setState, hrun, hupd, htok]
      · simp [setState, hrun, hupd, htok, lookupStore_writeStore_self]
    · cases hpend : alistLookup s.pendingStateRequest tok with
      | none =>
        constructor
        · simp [setState, hrun, hupd, htok, writeStore, hpend]
        · simp [setState, hrun, hupd, htok, writeStore, hpend]
          simpa [writeStore] using
            lookupStore_writeStore_self s tag
              { info with capabilityState := some j, refreshPolicy := pol }
      | some outstanding =>
        by_cases hmem : tag ∈ outstanding
        · constructor
          · simp [setState, hrun, hupd, htok, writeStore, hpend, hmem]
          · simp [setState, hrun, hupd, htok, writeStore, hpend, hmem, lookupStore,
              endpointCapabilities, resolveEndpoint, alistLookup_insert_self]
        · constructor
          · simp [setState, hrun, hupd, htok, writeStore, hpend, hmem]
          · simp [setState, hrun, hupd, htok, writeStore, hpend, hmem]
            simpa [writeStore] using
              lookupStore_writeStore_self s tag
                { info with capabilityState := some j, refreshPolicy := pol }

/-- Witness for C3 at a concrete state: tag `A` is unregistered (store
untouched, provider-not-registered), tag `B` is registered (success and
the value is written). -/
theorem setState_unregistered_vs_registered_witness :
    (lookupStore
        ⟨[("dev", [(⟨"B", "b", none⟩, ⟨some 3, none, true, RefreshPolicy.ALWAYS⟩)])],
          0, [], [], false, "dev"⟩ ⟨"A", "a", none⟩ = none →
      (setState
        ⟨[("dev", [(⟨"B", "b", none⟩, ⟨some 3, none, true, RefreshPolicy.ALWAYS⟩)])],
          0, [], [], false, "dev"⟩ ⟨"A", "a", none⟩ "x" RefreshPolicy.ALWAYS 0).fst =
        SetStateResult.STATE_PROVIDER_NOT_REGISTERED ∧
      (setState
        ⟨[("dev", [(⟨"B", "b", none⟩, ⟨some 3, none, true, RefreshPolicy.ALWAYS⟩)])],
          0, [], [], false, "dev"⟩ ⟨"A", "a", none⟩ "x" RefreshPolicy.ALWAYS 0).snd.fst =
        ⟨[("dev", [(⟨"B", "b", none⟩, ⟨some 3, none, true, RefreshPolicy.ALWAYS⟩)])],
          0, [], [], false, "dev"⟩) ∧
    (∀ info, lookupStore
        ⟨[("dev", [(⟨"B", "b", none⟩, ⟨some 3, none, true, RefreshPolicy.ALWAYS⟩)])],
          0, [], [], false, "dev"⟩ ⟨"A", "a", none⟩ = some info →
      (setState
        ⟨[("dev", [(⟨"B", "b", none⟩, ⟨some 3, none, true, RefreshPolicy.ALWAYS⟩)])],
          0, [], [], false, "dev"⟩ ⟨"A", "a", none⟩ "x" RefreshPolicy.ALWAYS 0).fst =
        SetStateResult.SUCCESS ∧
      lookupStore
        (setState
          ⟨[("dev", [(⟨"B", "b", none⟩, ⟨some 3, none, true, RefreshPolicy.ALWAYS⟩)])],
            0, [], [], false, "dev"⟩ ⟨"A", "a", none⟩ "x" RefreshPolicy.ALWAYS 0).snd.fst
        ⟨"A", "a", none⟩ =
        some { info with capabilityState := some "x", refreshPolicy := RefreshPolicy.ALWAYS }) :=
  setState_unregistered_vs_registered
    ⟨[("dev", [(⟨"B", "b", none⟩, ⟨some 3, none, true, RefreshPolicy.ALWAYS⟩)])],
      0, [], [], false, "dev"⟩ ⟨"A", "a", none⟩ "x" RefreshPolicy.ALWAYS 0 rfl

theorem mem_of_alistLookup_eq_some {α β : Type} [DecidableEq α]
    (l : List (α × β)) (k : α) (v : β) (h : alistLookup l k = some v) : (k, v) ∈ l := by
  induction l with
  | nil => cases h
  | cons p rest ih =>
    obtain ⟨k', v'⟩ := p
    by_cases hk : k' = k
    · subst hk
      rw [alistLookup, if_pos rfl] at h
      injection h with h
       
      subst h
      exact List.mem_cons_self _ _
    · rw [alistLookup, if_neg hk] at h
      exact List.mem_cons_of_mem _ (ih h)

theorem alistLookup_eq_some_of_mem {α β : Type} [DecidableEq α]
    (l : List (α × β)) (k : α) (v : β)
    (hnodup : (l.map Prod.fst).Nodup) (hmem : (k, v) ∈ l) :
    alistLookup l k = some v := by
  induction l with
  | nil => cases hmem
  | cons p rest ih =>
    obtain ⟨k', v'⟩ := p
    rw [List.map_cons, List.nodup_cons] at hnodup
    rcases List.mem_cons.mp hmem with heq | hmem'
    · injection heq with h1 h2
      subst h1
      subst h2
      rw [alistLookup, if_pos rfl]
    · have hk : k' ≠ k := by
        intro h
        subst h
        exact hnodup.1 (List.mem_map.mpr ⟨(k', v), hmem', rfl⟩)
      rw [alistLookup, if_neg hk]
      exact ih hnodup.2 hmem'

theorem pullWorklist_generateToken (s : CMState) (ep : String) :
    pullWorklist (generateToken s).snd ep = pullWorklist s ep := rfl

theorem getContext_pull_exists (s : CMState) (r : Nat) (ep : String) (tmo : Nat)
    (hrun : s.shutdown = false) (tag : CapabilityTag) :
    (∃ prov tk, CMOutput.pullRequest prov tag tk ∈ (getContext s r ep tmo).snd.snd) ↔
    ∃ info, (tag, info) ∈ pullWorklist s ep := by
  by_cases hwl : (pullWorklist s ep).isEmpty
  · have hwl' : pullWorklist s ep = [] := List.isEmpty_iff.mp hwl
    have houts : (getContext s r ep tmo).snd.snd =
        [CMOutput.contextAvailable r (snapshot (generateToken s).snd ep)
          (generateToken s).fst] := by
      simp [getContext, hrun, pullWorklist_generateToken, hwl]
    rw [houts]
    constructor
    · rintro ⟨prov, tk, hmem⟩
      simp at hmem
    · rintro ⟨info, hmem⟩
      rw [hwl'] at hmem
      cases hmem
  · have houts : (getContext s r ep tmo).snd.snd =
        CMOutput.armTimer (generateToken s).fst tmo ::
          (pullWorklist s ep).map
            (fun p => CMOutput.pullRequest (p.snd.stateProvider.getD 0) p.fst
              (generateToken s).fst) := by
      simp [getContext, hrun, pullWorklist_generateToken, hwl]
    rw [houts]
    constructor
    · rintro ⟨prov, tk, hmem⟩
      rcases List.mem_cons.mp hmem with h | h
      · cases h
      · rcases List.mem_map.mp h with ⟨p, hp, heq⟩
        injection heq with hprov htag htk
        refine ⟨p.snd, ?_⟩
        have hp' : (p.fst, p.snd) ∈ pullWorklist s ep := by
          simpa using hp
        rw [htag] at hp'
        exact hp'
    · rintro ⟨info, hmem⟩
      exact ⟨info.stateProvider.getD 0, (generateToken s).fst,
        List.mem_cons_of_mem _ (List.mem_map.mpr ⟨(tag, info), hmem, rfl⟩)⟩

/-- C4: for every registered capability of the target endpoint,
`getContext` issues a pull to its provider exactly when its refresh
policy is `ALWAYS` or it has no cached value; for a capability with
policy `NEVER` and a cached value no pull is issued and the cached value
appears in the endpoint snapshot used for the aggregate. -/
theorem getContext_pull_selection (s : CMState) (r : Nat) (ep : String) (tmo : Nat)
    (hrun : s.shutdown = false)
    (hnodup : ((endpointCapabilities s ep).map Prod.fst).Nodup) :
    (∀ tag : CapabilityTag,
      (∃ prov tk, CMOutput.pullRequest prov tag tk ∈ (getContext s r ep tmo).snd.snd) ↔
      (∃ info, alistLookup (endpointCapabilities s ep) tag = some info ∧
        (info.refreshPolicy = RefreshPolicy.ALWAYS ∨ info.capabilityState = none))) ∧
    (∀ tag info v, alistLookup (endpointCapabilities s ep) tag = some info →
      info.refreshPolicy = RefreshPolicy.NEVER → info.capabilityState = some v →
      (∀ prov tk, CMOutput.pullRequest prov tag tk ∉ (getContext s r ep tmo).snd.snd) ∧
      (tag, some v) ∈ snapshot s ep) := by
  constructor
  · intro tag
    rw [getContext_pull_exists s r ep tmo hrun tag]
    constructor
    · rintro ⟨info, hmem⟩
      rw [pullWorklist, List.mem_filter] at hmem
      refine ⟨info, alistLookup_eq_some_of_mem _ _ _ hnodup hmem.1, ?_⟩
      have hcond := hmem.2
      simp only [needsPull, Bool.or_eq_true, decide_eq_true_eq,
        Option.isNone_iff_eq_none] at hcond
      exact hcond
    · rintro ⟨info, hlk, hcond⟩
      refine ⟨info, ?_⟩
      rw [pullWorklist, List.mem_filter]
      refine ⟨mem_of_alistLookup_eq_some _ _ _ hlk, ?_⟩
      simp only [needsPull, Bool.or_eq_true, decide_eq_true_eq,
        Option.isNone_iff_eq_none]
      exact hcond
  · intro tag info v hlk hpol hcache
    constructor
    · intro prov tk hmem
      rcases (getContext_pull_exists s r ep tmo hrun tag).mp ⟨prov, tk, hmem⟩ with
        ⟨info2, hmem2⟩
      rw [pullWorklist, List.mem_filter] at hmem2
      have heq : alistLookup (endpointCapabilities s ep) tag = some info2 :=
        alistLookup_eq_some_of_mem _ _ _ hnodup hmem2.1
      rw [hlk] at heq
      injection heq with heq
      subst heq
      have hcond := hmem2.2
      simp [needsPull, hpol, hcache] at hcond
    · exact List.mem_map.mpr
        ⟨(tag, info), mem_of_alistLookup_eq_some _ _ _ hlk, by simp [hcache]⟩

/-- Endpoint `"dev"` with capability `A` (policy `ALWAYS`, no cache) and
capability `B` (policy `NEVER`, cached `"on"`): the concrete state used
by several witnesses. -/
def sampleStore : CMState :=
  ⟨[("dev",
      [(⟨"A", "a", none⟩, ⟨some 7, none, false, RefreshPolicy.ALWAYS⟩),
       (⟨"B", "b", none⟩, ⟨some 8, some "on", false, RefreshPolicy.NEVER⟩)])],
    0, [], [], false, "dev"⟩

/-- Witness for C4 at `sampleStore`: the pull-selection rule holds for
the concrete `getContext` call on endpoint `"dev"`. -/
theorem getContext_pull_selection_witness :
    (∀ tag : CapabilityTag,
      (∃ prov tk,
        CMOutput.pullRequest prov tag tk ∈ (getContext sampleStore 1 "dev" 200).snd.snd) ↔
      (∃ info, alistLookup (endpointCapabilities sampleStore "dev") tag = some info ∧
        (info.refreshPolicy = RefreshPolicy.ALWAYS ∨ info.capabilityState = none))) ∧
    (∀ tag info v,
      alistLookup (endpointCapabilities sampleStore "dev") tag = some info →
      info.refreshPolicy = RefreshPolicy.NEVER → info.capabilityState = some v →
      (∀ prov tk,
        CMOutput.pullRequest prov tag tk ∉ (getContext sampleStore 1 "dev" 200).snd.snd) ∧
      (tag, some v) ∈ snapshot sampleStore "dev") :=
  getContext_pull_selection sampleStore 1 "dev" 200 rfl (by decide)

/-- C5: `getContext` computes its returned token from the current state
alone (it is the freshly generated token, independent of any provider
response), and when the computed pull worklist for the endpoint is empty
the request resolves immediately with success using the current
snapshot: the only output is the success delivery, no timeout timer is
armed, and no pending-request entry is created. -/
theorem getContext_returns_immediately (s : CMState) (r : Nat) (ep : String)
    (tmo : Nat) (hrun : s.shutdown = false) :
    (getContext s r ep tmo).fst = (generateToken s).fst ∧
    (pullWorklist s ep = [] →
      (getContext s r ep tmo).snd.snd =
        [CMOutput.contextAvailable r (snapshot s ep) (generateToken s).fst] ∧
      (getContext s r ep tmo).snd.fst.pendingRequests = s.pendingRequests ∧
      (getContext s r ep tmo).snd.fst.pendingStateRequest = s.pendingStateRequest ∧
      ∀ tk d, CMOutput.armTimer tk d ∉ (getContext s r ep tmo).snd.snd) := by
  constructor
  · by_cases hwl : (pullWorklist (generateToken s).snd ep).isEmpty
    · simp [getContext, hrun, hwl]
    · simp [getContext, hrun, hwl]
  · intro hempty
    have hwl : (pullWorklist (generateToken s).snd ep).isEmpty = true := by
      rw [pullWorklist_generateToken, hempty]
      rfl
    have hres : getContext s r ep tmo =
        ((generateToken s).fst, (generateToken s).snd,
          [CMOutput.contextAvailable r (snapshot (generateToken s).snd ep)
            (generateToken s).fst]) := by
      simp [getContext, hrun, hwl]
    rw [hres]
    refine ⟨rfl, rfl, rfl, ?_⟩
    intro tk d hmem
    simp at hmem

/-- Witness for C5 at `sampleStore` and endpoint `"empty"` (which has no
registered capability, hence an empty worklist). -/
theorem getContext_returns_immediately_witness :
    (getContext sampleStore 1 "empty" 200).fst = (generateToken sampleStore).fst ∧
    (pullWorklist sampleStore "empty" = [] →
      (getContext sampleStore 1 "empty" 200).snd.snd =
        [CMOutput.contextAvailable 1 (snapshot sampleStore "empty")
          (generateToken sampleStore).fst] ∧
      (getContext sampleStore 1 "empty" 200).snd.fst.pendingRequests =
        sampleStore.pendingRequests ∧
      (getContext sampleStore 1 "empty" 200).snd.fst.pendingStateRequest =
        sampleStore.pendingStateRequest ∧
      ∀ tk d, CMOutput.armTimer tk d ∉ (getContext sampleStore 1 "empty" 200).snd.snd) :=
  getContext_returns_immediately sampleStore 1 "empty" 200 rfl

/-- C6: for a pending request, an unavailable response with
`isEndpointUnreachable` set resolves the whole request immediately with
the `EndpointUnreachable` failure regardless of the outstanding set
(even if other providers already responded), and deletes the request's
bookkeeping; with `isEndpointUnreachable` false and other tags still
outstanding, the call only removes the tag from the outstanding set,
delivers nothing, and leaves the capability state store (hence the
capability's last cached value) untouched. -/
theorem provideStateUnavailable_semantics (s : CMState) (tag : CapabilityTag)
    (tok : Nat) (outstanding : List CapabilityTag) (trk : RequestTracker)
    (hrun : s.shutdown = false)
    (hout : alistLookup s.pendingStateRequest tok = some outstanding)
    (htrk : alistLookup s.pendingRequests tok = some trk) :
    ((provideStateUnavailableResponse s tag tok true).snd =
      [CMOutput.contextFailure trk.contextRequester
        ContextRequestError.EndpointUnreachable tok] ∧
      tokenDead (provideStateUnavailableResponse s tag tok true).fst tok) ∧
    (tag ∈ outstanding → removeAll outstanding tag ≠ [] →
      (provideStateUnavailableResponse s tag tok false).snd = [] ∧
      (provideStateUnavailableResponse s tag tok false).fst =
        { s with pendingStateRequest :=
            alistInsert s.pendingStateRequest tok (removeAll outstanding tag) } ∧
      lookupStore (provideStateUnavailableResponse s tag tok false).fst tag =
        lookupStore s tag) := by
  constructor
  · have hres : provideStateUnavailableResponse s tag tok true =
        sendContextRequestFailedLocked s tok ContextRequestError.EndpointUnreachable := by
      simp [provideStateUnavailableResponse, hrun, hout]
    have hfail : sendContextRequestFailedLocked s tok
        ContextRequestError.EndpointUnreachable =
        ({ s with
            pendingRequests := alistErase s.pendingRequests tok
            pendingStateRequest := alistErase s.pendingStateRequest tok },
         [CMOutput.contextFailure trk.contextRequester
            ContextRequestError.EndpointUnreachable tok]) := by
      simp [sendContextRequestFailedLocked, htrk]
    rw [hres, hfail]
    exact ⟨rfl, alistLookup_erase_self _ _, alistLookup_erase_self _ _⟩
  · intro hmem hne
    cases hrem : removeAll outstanding tag with
    | nil => exact absurd hrem hne
    | cons a l =>
      have hres : provideStateUnavailableResponse s tag tok false =
          sendContextIfReadyLocked
            { s with pendingStateRequest :=
                alistInsert s.pendingStateRequest tok (removeAll outstanding tag) }
            tok (resolveEndpoint s tag) := by
        simp [provideStateUnavailableResponse, hrun, hout, hmem]
      have hready : sendContextIfReadyLocked
          { s with pendingStateRequest :=
              alistInsert s.pendingStateRequest tok (removeAll outstanding tag) }
          tok (resolveEndpoint s tag) =
          ({ s with pendingStateRequest :=
              alistInsert s.pendingStateRequest tok (removeAll outstanding tag) }, []) := by
        simp [sendContextIfReadyLocked, alistLookup_insert_self, hrem]
      rw [hres, hready]
      refine ⟨rfl, ?_, rfl⟩
      rw [hrem]

/-- A state with a pending request awaiting responses from tags `A` and
`B`, used by the response-handling witnesses. -/
def samplePending : CMState :=
  ⟨[("dev",
      [(⟨"A", "a", none⟩, ⟨some 7, none, false, RefreshPolicy.ALWAYS⟩),
       (⟨"B", "b", none⟩, ⟨some 8, some "on", false, RefreshPolicy.NEVER⟩)])],
    3, [(3, [⟨"A", "a", none⟩, ⟨"B", "b", none⟩])], [(3, ⟨3, 42⟩)], false, "dev"⟩

/-- Witness for C6 at `samplePending`: an unavailable response for tag
`A` of the pending request with token 3. -/
theorem provideStateUnavailable_semantics_witness :
    ((provideStateUnavailableResponse samplePending ⟨"A", "a", none⟩ 3 true).snd =
      [CMOutput.contextFailure 42 ContextRequestError.EndpointUnreachable 3] ∧
      tokenDead (provideStateUnavailableResponse samplePending ⟨"A", "a", none⟩ 3 true).fst 3) ∧
    (⟨"A", "a", none⟩ ∈ [(⟨"A", "a", none⟩ : CapabilityTag), ⟨"B", "b", none⟩] →
      removeAll [(⟨"A", "a", none⟩ : CapabilityTag), ⟨"B", "b", none⟩] ⟨"A", "a", none⟩ ≠ [] →
      (provideStateUnavailableResponse samplePending ⟨"A", "a", none⟩ 3 false).snd = [] ∧
      (provideStateUnavailableResponse samplePending ⟨"A", "a", none⟩ 3 false).fst =
        { samplePending with
            pendingStateRequest :=
              alistInsert samplePending.pendingStateRequest 3
                (removeAll [(⟨"A", "a", none⟩ : CapabilityTag), ⟨"B", "b", none⟩]
                  ⟨"A", "a", none⟩) } ∧
      lookupStore (provideStateUnavailableResponse samplePending ⟨"A", "a", none⟩ 3 false).fst
          ⟨"A", "a", none⟩ =
        lookupStore samplePending ⟨"A", "a", none⟩) :=
  provideStateUnavailable_semantics samplePending ⟨"A", "a", none⟩ 3
    [⟨"A", "a", none⟩, ⟨"B", "b", none⟩] ⟨3, 42⟩ rfl (by decide) (by decide)

/-- C7: when the timeout of a still-pending request fires, the requester
receives exactly one `RequestTimeout` failure and no aggregate is
delivered; the bookkeeping is deleted, so a second firing for the same
token is a no-op. -/
theorem timeout_single_failure_no_partial (s : CMState) (tok : Nat)
    (trk : RequestTracker) (hrun : s.shutdown = false)
    (htrk : alistLookup s.pendingRequests tok = some trk) :
    (onTimeout s tok).snd =
      [CMOutput.contextFailure trk.contextRequester
        ContextRequestError.RequestTimeout tok] ∧
    (∀ r agg, CMOutput.contextAvailable r agg tok ∉ (onTimeout s tok).snd) ∧
    tokenDead (onTimeout s tok).fst tok ∧
    onTimeout (onTimeout s tok).fst tok = ((onTimeout s tok).fst, []) := by
  have hres : onTimeout s tok =
      ({ s with
          pendingRequests := alistErase s.pendingRequests tok
          pendingStateRequest := alistErase s.pendingStateRequest tok },
       [CMOutput.contextFailure trk.contextRequester
          ContextRequestError.RequestTimeout tok]) := by
    simp [onTimeout, hrun, sendContextRequestFailedLocked, htrk]
  rw [hres]
  refine ⟨rfl, ?_, ⟨alistLookup_erase_self _ _, alistLookup_erase_self _ _⟩, ?_⟩
  · intro r agg hmem
    simp at hmem
  · simp [onTimeout, hrun, sendContextRequestFailedLocked, alistLookup_erase_self]

/-- Witness for C7 at `samplePending`: the timer for token 3 fires while
tags are still outstanding. -/
theorem timeout_single_failure_no_partial_witness :
    (onTimeout samplePending 3).snd =
      [CMOutput.contextFailure 42 ContextRequestError.RequestTimeout 3] ∧
    (∀ r agg, CMOutput.contextAvailable r agg 3 ∉ (onTimeout samplePending 3).snd) ∧
    tokenDead (onTimeout samplePending 3).fst 3 ∧
    onTimeout (onTimeout samplePending 3).fst 3 = ((onTimeout samplePending 3).fst, []) :=
  timeout_single_failure_no_partial samplePending 3 ⟨3, 42⟩ rfl (by decide)

theorem cancelled_filter (l : List (Nat × RequestTracker)) (tok : Nat)
    (trk : RequestTracker) (hnodup : (l.map Prod.fst).Nodup)
    (h : alistLookup l tok = some trk) :
    (l.map (fun p => CMOutput.contextFailure p.snd.contextRequester
        ContextRequestError.Cancelled p.fst)).filter (CMOutput.isDeliveryFor tok) =
      [CMOutput.contextFailure trk.contextRequester ContextRequestError.Cancelled tok] := by
  induction l with
  | nil => cases h
  | cons p rest ih =>
    obtain ⟨k, v⟩ := p
    rw [List.map_cons, List.nodup_cons] at hnodup
    by_cases hk : k = tok
    · subst hk
      rw [alistLookup, if_pos rfl] at h
      injection h with h
      subst h
      have htail : (rest.map (fun p => CMOutput.contextFailure p.snd.contextRequester
          ContextRequestError.Cancelled p.fst)).filter (CMOutput.isDeliveryFor k) = [] := by
        rw [List.filter_eq_nil_iff]
        intro out hout
        rcases List.mem_map.mp hout with ⟨q, hq, rfl⟩
        simp only [CMOutput.isDeliveryFor, beq_iff_eq, Bool.not_eq_true, decide_eq_false_iff_not]
        intro hqk
        exact hnodup.1 (hqk ▸ List.mem_map.mpr ⟨q, hq, rfl⟩)
      simp [List.filter_cons, CMOutput.isDeliveryFor, htail]
    · rw [alistLookup, if_neg hk] at h
      have htl := ih hnodup.2 h
      simp [List.filter_cons, CMOutput.isDeliveryFor, hk, htl]

/-- C8: once the shutdown flag is set every public operation (including
registration, `setState`, `getContext`, provider responses,
`reportStateChange` and timer callbacks) is a no-op with no output (in
particular no timer is armed and the flag is never cleared); invoking
shutdown from a running state sets the flag, clears the pending tables,
and delivers to each request pending at that moment exactly one
`Cancelled` failure. -/
theorem shutdown_oneway_noop_cancel (s : CMState)
    (hnodup : (s.pendingRequests.map Prod.fst).Nodup) :
    (∀ e : CMEvent, s.shutdown = true → cmStep s e = (s, [])) ∧
    (∀ e : CMEvent, s.shutdown = true → (cmStep s e).fst.shutdown = true) ∧
    (s.shutdown = false →
      (cmStep s CMEvent.shutdown).fst.shutdown = true ∧
      (cmStep s CMEvent.shutdown).fst.pendingRequests = [] ∧
      (cmStep s CMEvent.shutdown).fst.pendingStateRequest = [] ∧
      ∀ tok trk, alistLookup s.pendingRequests tok = some trk →
        (cmStep s CMEvent.shutdown).snd.filter (CMOutput.isDeliveryFor tok) =
          [CMOutput.contextFailure trk.contextRequester
            ContextRequestError.Cancelled tok]) := by
  have h1 : ∀ e : CMEvent, s.shutdown = true → cmStep s e = (s, []) := by
    intro e h
    cases e <;>
      simp [cmStep, setStateProvider, addStateProvider, removeStateProvider, setState,
        getContext, reportStateChange, provideStateResponse,
        provideStateUnavailableResponse, onTimeout, doShutdown, h]
  refine ⟨h1, fun e h => by rw [h1 e h]; exact h, ?_⟩
  intro hrun
  have hres : cmStep s CMEvent.shutdown =
      ({ s with shutdown := true, pendingRequests := [], pendingStateRequest := [] },
       s.pendingRequests.map (fun p => CMOutput.contextFailure p.snd.contextRequester
         ContextRequestError.Cancelled p.fst)) := by
    simp [cmStep, doShutdown, hrun]
  rw [hres]
  exact ⟨rfl, rfl, rfl, fun tok trk h => cancelled_filter s.pendingRequests tok trk hnodup h⟩

/-- Witness for C8 at `samplePending` (one request pending for token 3)
and at the corresponding shut-down state. -/
theorem shutdown_oneway_noop_cancel_witness :
    (∀ e : CMEvent, samplePending.shutdown = true → cmStep samplePending e = (samplePending, [])) ∧
    (∀ e : CMEvent, samplePending.shutdown = true →
      (cmStep samplePending e).fst.shutdown = true) ∧
    (samplePending.shutdown = false →
      (cmStep samplePending CMEvent.shutdown).fst.shutdown = true ∧
      (cmStep samplePending CMEvent.shutdown).fst.pendingRequests = [] ∧
      (cmStep samplePending CMEvent.shutdown).fst.pendingStateRequest = [] ∧
      ∀ tok trk, alistLookup samplePending.pendingRequests tok = some trk →
        (cmStep samplePending CMEvent.shutdown).snd.filter (CMOutput.isDeliveryFor tok) =
          [CMOutput.contextFailure trk.contextRequester
            ContextRequestError.Cancelled tok]) :=
  shutdown_oneway_noop_cancel samplePending (by decide)

/-- C9: before shutdown, re-registering a provider for a tag via the
legacy reset path (`setStateProvider`) replaces the record and discards
any previously cached value, while the non-reset path
(`addStateProvider`) replaces the record but preserves the existing
cached value (absent when there was none); in both cases no other tag's
record is modified. -/
theorem register_reset_vs_preserve (s : CMState) (tag : CapabilityTag)
    (p : Option Nat) (hrun : s.shutdown = false) :
    lookupStore (setStateProvider s tag p) tag =
      some ⟨p, none, true, RefreshPolicy.ALWAYS⟩ ∧
    (∀ info, lookupStore s tag = some info →
      lookupStore (addStateProvider s tag p) tag =
        some ⟨p, info.capabilityState, false, RefreshPolicy.ALWAYS⟩) ∧
    (lookupStore s tag = none →
      lookupStore (addStateProvider s tag p) tag =
        some ⟨p, none, false, RefreshPolicy.ALWAYS⟩) ∧
    (∀ tag2, tag2 ≠ tag →
      lookupStore (setStateProvider s tag p) tag2 = lookupStore s tag2 ∧
      lookupStore (addStateProvider s tag p) tag2 = lookupStore s tag2) := by
  have hset : setStateProvider s tag p = registerProvider s tag p true true := by
    simp [setStateProvider, hrun]
  have hadd : addStateProvider s tag p = registerProvider s tag p false false := by
    simp [addStateProvider, hrun]
  refine ⟨?_, ?_, ?_, ?_⟩
  · rw [hset]
    cases hl : lookupStore s tag with
    | none => simp [registerProvider, hl, lookupStore_writeStore_self]
    | some info => simp [registerProvider, hl, lookupStore_writeStore_self]
  · intro info hsome
    rw [hadd]
    simp [registerProvider, hsome, lookupStore_writeStore_self]
  · intro hnone
    rw [hadd]
    simp [registerProvider, hnone, lookupStore_writeStore_self]
  · intro tag2 hne
    rw [hset, hadd]
    cases hl : lookupStore s tag with
    | none =>
      exact ⟨by simp [registerProvider, hl, lookupStore_writeStore_ne _ _ _ _ hne],
        by simp [registerProvider, hl, lookupStore_writeStore_ne _ _ _ _ hne]⟩
    | some info =>
      exact ⟨by simp [registerProvider, hl, lookupStore_writeStore_ne _ _ _ _ hne],
        by simp [registerProvider, hl, lookupStore_writeStore_ne _ _ _ _ hne]⟩

/-- Witness for C9 at `sampleStore`: re-registering tag `B` (which has a
cached value) through both paths, and checking tag `A` is untouched. -/
theorem register_reset_vs_preserve_witness :
    lookupStore (setStateProvider sampleStore ⟨"B", "b", none⟩ (some 9)) ⟨"B", "b", none⟩ =
      some ⟨some 9, none, true, RefreshPolicy.ALWAYS⟩ ∧
    (∀ info, lookupStore sampleStore ⟨"B", "b", none⟩ = some info →
      lookupStore (addStateProvider sampleStore ⟨"B", "b", none⟩ (some 9)) ⟨"B", "b", none⟩ =
        some ⟨some 9, info.capabilityState, false, RefreshPolicy.ALWAYS⟩) ∧
    (lookupStore sampleStore ⟨"B", "b", none⟩ = none →
      lookupStore (addStateProvider sampleStore ⟨"B", "b", none⟩ (some 9)) ⟨"B", "b", none⟩ =
        some ⟨some 9, none, false, RefreshPolicy.ALWAYS⟩) ∧
    (∀ tag2, tag2 ≠ ⟨"B", "b", none⟩ →
      lookupStore (setStateProvider sampleStore ⟨"B", "b", none⟩ (some 9)) tag2 =
        lookupStore sampleStore tag2 ∧
      lookupStore (addStateProvider sampleStore ⟨"B", "b", none⟩ (some 9)) tag2 =
        lookupStore sampleStore tag2) :=
  register_reset_vs_preserve sampleStore ⟨"B", "b", none⟩ (some 9) rfl

theorem mem_keys_alistInsert {α β : Type} [DecidableEq α] (l : List (α × β))
    (a : α) (b : β) (x : α) :
    x ∈ (alistInsert l a b).map Prod.fst ↔ x = a ∨ x ∈ l.map Prod.fst := by
  induction l with
  | nil => simp [alistInsert]
  | cons p rest ih =>
    obtain ⟨k, v⟩ := p
    by_cases hk : k = a
    · subst hk
      simp [alistInsert]
    · simp [alistInsert, hk, ih]
      tauto

theorem alistInsert_keys_nodup {α β : Type} [DecidableEq α] (l : List (α × β))
    (a : α) (b : β) (h : (l.map Prod.fst).Nodup) :
    ((alistInsert l a b).map Prod.fst).Nodup := by
  induction l with
  | nil => simp [alistInsert]
  | cons p rest ih =>
    obtain ⟨k, v⟩ := p
    rw [List.map_cons, List.nodup_cons] at h
    by_cases hk : k = a
    · subst hk
      rw [show alistInsert ((k, v) :: rest) k b = (k, b) :: rest from by simp [alistInsert]]
      rw [List.map_cons, List.nodup_cons]
      exact h
    · rw [show alistInsert ((k, v) :: rest) a b = (k, v) :: alistInsert rest a b from by
        simp [alistInsert, hk]]
      rw [List.map_cons, List.nodup_cons]
      refine ⟨?_, ih h.2⟩
      intro hmem
      rcases (mem_keys_alistInsert rest a b k).mp hmem with heq | hm
      · exact hk heq
      · exact h.1 hm

theorem endpointCapabilities_writeStore_self (s : CMState) (tag : CapabilityTag)
    (info : StateInfo) :
    endpointCapabilities (writeStore s tag info) (resolveEndpoint s tag) =
      alistInsert (endpointCapabilities s (resolveEndpoint s tag)) tag info := by
  unfold endpointCapabilities writeStore
  simp [alistLookup_insert_self]
  rfl

theorem not_mem_worklist (s : CMState) (ep : String) (tag : CapabilityTag)
    (info : StateInfo)
    (hnodup : ((endpointCapabilities s ep).map Prod.fst).Nodup)
    (hlk : alistLookup (endpointCapabilities s ep) tag = some info)
    (hnp : needsPull info = false) :
    tag ∉ (pullWorklist s ep).map Prod.fst := by
  intro hmem
  rcases List.mem_map.mp hmem with ⟨q, hq, hfst⟩
  rw [pullWorklist, List.mem_filter] at hq
  have hq1 : (tag, q.snd) ∈ endpointCapabilities s ep := by
    have : (q.fst, q.snd) ∈ endpointCapabilities s ep := by simpa using hq.1
    rw [hfst] at this
    exact this
  have heq : alistLookup (endpointCapabilities s ep) tag = some q.snd :=
    alistLookup_eq_some_of_mem _ _ _ hnodup hq1
  rw [hlk] at heq
  injection heq with heq
  subst heq
  rw [hnp] at hq
  exact Bool.false_ne_true hq.2

/-- C10: a `StateInfo` record built by the legacy constructor with its
header default arguments has refresh policy `ALWAYS`, no provider and no
cached value (empty state string); consequently a capability holding
such a record is always in the pull worklist of a `getContext` round,
and stops being in the worklist once a `NEVER` policy is written for it
via `setState`. -/
theorem stateInfo_default_policy_always (s : CMState) (ep : String)
    (tag : CapabilityTag) :
    (StateInfo.ofLegacy : StateInfo).refreshPolicy = RefreshPolicy.ALWAYS ∧
    (StateInfo.ofLegacy : StateInfo).stateProvider = none ∧
    (StateInfo.ofLegacy : StateInfo).capabilityState = none ∧
    (alistLookup (endpointCapabilities s ep) tag = some (StateInfo.ofLegacy : StateInfo) →
      tag ∈ (pullWorklist s ep).map Prod.fst) ∧
    (∀ j info, s.shutdown = false →
      ((endpointCapabilities s (resolveEndpoint s tag)).map Prod.fst).Nodup →
      lookupStore s tag = some info →
      tag ∉ (pullWorklist (setState s tag j RefreshPolicy.NEVER 0).snd.fst
        (resolveEndpoint s tag)).map Prod.fst) := by
  refine ⟨rfl, rfl, rfl, ?_, ?_⟩
  · intro hlk
    refine List.mem_map.mpr ⟨(tag, (StateInfo.ofLegacy : StateInfo)), ?_, rfl⟩
    rw [pullWorklist, List.mem_filter]
    exact ⟨mem_of_alistLookup_eq_some _ _ _ hlk, by simp [needsPull, StateInfo.ofLegacy]⟩
  · intro j info hrun hnodup hsome
    have hset : (setState s tag j RefreshPolicy.NEVER 0).snd.fst =
        writeStore s tag
          { info with capabilityState := some j, refreshPolicy := RefreshPolicy.NEVER } := by
      simp [setState, hrun, updateCapabilityState, hsome]
    rw [hset]
    have hre : resolveEndpoint
        (writeStore s tag
          { info with capabilityState := some j, refreshPolicy := RefreshPolicy.NEVER })
        tag = resolveEndpoint s tag := rfl
    apply not_mem_worklist _ _ tag
      { info with capabilityState := some j, refreshPolicy := RefreshPolicy.NEVER }
    · rw [endpointCapabilities_writeStore_self]
      exact alistInsert_keys_nodup _ _ _ hnodup
    · rw [endpointCapabilities_writeStore_self]
      exact alistLookup_insert_self _ _ _
    · simp [needsPull]

/-- Witness for C10 at `sampleStore`, endpoint `"dev"`, tag `B`. -/
theorem stateInfo_default_policy_always_witness :
    (StateInfo.ofLegacy : StateInfo).refreshPolicy = RefreshPolicy.ALWAYS ∧
    (StateInfo.ofLegacy : StateInfo).stateProvider = none ∧
    (StateInfo.ofLegacy : StateInfo).capabilityState = none ∧
    (alistLookup (endpointCapabilities sampleStore "dev") ⟨"B", "b", none⟩ =
        some (StateInfo.ofLegacy : StateInfo) →
      (⟨"B", "b", none⟩ : CapabilityTag) ∈ (pullWorklist sampleStore "dev").map Prod.fst) ∧
    (∀ j info, sampleStore.shutdown = false →
      ((endpointCapabilities sampleStore
          (resolveEndpoint sampleStore ⟨"B", "b", none⟩)).map Prod.fst).Nodup →
      lookupStore sampleStore ⟨"B", "b", none⟩ = some info →
      (⟨"B", "b", none⟩ : CapabilityTag) ∉
        (pullWorklist (setState sampleStore ⟨"B", "b", none⟩ j RefreshPolicy.NEVER 0).snd.fst
          (resolveEndpoint sampleStore ⟨"B", "b", none⟩)).map Prod.fst) :=
  stateInfo_default_policy_always sampleStore "dev" ⟨"B", "b", none⟩
